import Mathlib

/-!
Verification of the host adapter (`src/app.js`) of the riscv-md3-emu
repository: the `UiMemory` MMIO wrapper, the `start`/`stop`/`step`/`runLoop`
driver, the `CAUSES` message table and the CSR view computed by `updateView`.

The emulator core (`emulator.js`) and the assembler (`assembler.js`) are
imported by `app.js` but are not part of the sources under verification;
where the host touches them, their behaviour is modelled from the
specification and marked as such in the doc comments.

Machine integers are modelled as `Nat` with explicit `% 2 ^ 32`
(resp. `% 256`) where JavaScript's 32-bit coercions matter.  JavaScript
`null` returns are modelled with `Option` (`none` = `null`).
-/

namespace RiscvEmu

/-- Modelled from the spec: the base `RiscvMemory` class of `emulator.js`
(not under `src/`): "A flat array of bytes of configurable size", read and
write "little-endian", failing "with `AccessFault` if the region is unmapped,
or `AddressMisaligned` if `addr % width ≠ 0`".  The byte store is a function
from RAM offset to byte value.  RAM is mapped at the host's origin
`0x40000000` and spans `size` bytes. -/
structure RiscvMemory where
  size : Nat
  ram : Nat → Nat

/-- The base address at which the backing RAM is mapped (the host's origin). -/
def ramBase : Nat := 0x40000000

/-- Little-endian combination of `width` bytes of `ram` starting at
offset `off`. -/
def leRead (ram : Nat → Nat) (off width : Nat) : Nat :=
  (List.range width).foldr (fun i acc => acc * 256 + ram (off + i)) 0

/-- Update `ram` so that the `width` bytes starting at offset `off` hold
`data` little-endian; all other bytes are untouched. -/
def leWrite (ram : Nat → Nat) (off width data : Nat) : Nat → Nat :=
  fun i => if off ≤ i ∧ i < off + width then data / 256 ^ (i - off) % 256 else ram i

/-- Modelled from the spec: `RiscvMemory.read` of `emulator.js` (not under
`src/`) — little-endian read of `width` bytes, `null` (= `none`) on a
misaligned or out-of-range address. -/
def RiscvMemory.baseRead (m : RiscvMemory) (address width : Nat) : Option Nat :=
  if address % width = 0 ∧ ramBase ≤ address ∧ address + width ≤ ramBase + m.size then
    some (leRead m.ram (address - ramBase) width)
  else none

/-- Modelled from the spec: `RiscvMemory.write` of `emulator.js` (not under
`src/`) — little-endian write, `null` (= `none`) on a misaligned or
out-of-range address.  The first component is the JavaScript return value
(`some ()` = `true`, `none` = `null`); the second is the memory after the
call. -/
def RiscvMemory.baseWrite (m : RiscvMemory) (address width data : Nat) :
    Option Unit × RiscvMemory :=
  if address % width = 0 ∧ ramBase ≤ address ∧ address + width ≤ ramBase + m.size then
    (some (), { m with ram := leWrite m.ram (address - ramBase) width data })
  else (none, m)

/-- WHATWG `TextDecoder` (UTF-8, non-fatal) applied to a one-byte buffer, as
`UiMemory.write` does with `this.decoder.decode(new Uint8Array([data & 0xff]))`:
a byte below `0x80` decodes to the character with that code; any byte
`≥ 0x80` is either a stray continuation byte, an invalid byte, or an
incomplete sequence at end of input, and decodes to the replacement
character U+FFFD. -/
def decodeByte (b : Nat) : Char :=
  if b < 0x80 then Char.ofNat b else Char.ofNat 0xFFFD

/-- `UiMemory` of `src/app.js`: the base memory plus the terminal the MMIO
character device appends to.  `terminal` is the `textContent` of the
terminal element (only the part written by the device is tracked here). -/
structure UiMemory where
  mem : RiscvMemory
  terminal : String

/-- `UiMemory.read` (`src/app.js` lines 47-50): address `0x10000000` returns
`0` for widths 4 and 1 and `null` otherwise; every other address falls
through to the base memory. -/
def UiMemory.read (m : UiMemory) (address width : Nat) : Option Nat :=
  if address = 0x10000000 then
    if width = 4 ∨ width = 1 then some 0 else none
  else m.mem.baseRead address width

/-- `UiMemory.write` (`src/app.js` lines 51-62): address `0x10000000` with
width 4 or 1 appends `decoder.decode(new Uint8Array([data & 0xff]))` to the
terminal and returns `true`; other widths at that address return `null`;
every other address falls through to the base memory.  The first component
is the JavaScript return value (`some ()` = `true`, `none` = `null`). -/
def UiMemory.write (m : UiMemory) (address width data : Nat) :
    Option Unit × UiMemory :=
  if address = 0x10000000 then
    if width = 4 ∨ width = 1 then
      (some (), { m with terminal := m.terminal.push (decodeByte (data % 256)) })
    else (none, m)
  else
    match m.mem.baseWrite address width data with
    | (r, mm) => (r, { m with mem := mm })

/-- A fresh `UiMemory` as constructed by `new UiMemory(els.terminal)`
(`src/app.js` lines 42-46): `super(1 << 20)` bytes of RAM; the device has
appended nothing yet. -/
def UiMemory.init : UiMemory :=
  { mem := { size := 2 ^ 20, ram := fun _ => 0 }, terminal := "" }

/-- Copy the assembled image into RAM at offset 0, as
`new Uint8Array(state.mem.memory).set(new Uint8Array(res.data))`
(`src/app.js` line 214) does. -/
def copyImage (m : UiMemory) (data : List Nat) : UiMemory :=
  let newRam : Nat → Nat := fun i =>
    match data.get? i with
    | some b => b % 256
    | none => m.mem.ram i
  { m with mem := { m.mem with ram := newRam } }

/-- Modelled from the spec: the interpreter state constructed by
`new RiscvState(memory)` of `emulator.js` (not under `src/`): "construct with
all registers zero, `pc = 0`, `priv = Machine`, CSRs zero".  Only the fields
the host adapter touches or displays are carried; `regs` is the `Uint32Array`
of the 32 general-purpose registers. -/
structure RiscvState where
  pc : Nat
  regs : Fin 32 → Nat
  priv : Nat

/-- Modelled from the spec: the `RiscvState` constructor — registers zero,
`pc = 0`, privilege Machine (3). -/
def RiscvState.init : RiscvState :=
  { pc := 0, regs := fun _ => 0, priv := 3 }

/-- One assembler error record as the JavaScript object delivered in
`res.errors`.  Numeric properties are kept as a string-keyed association
list so that access to an absent property (JavaScript `undefined`) is
observable; `message` is the error text. -/
structure ErrRecord where
  numFields : List (String × Nat)
  message : String

/-- JavaScript property read of a numeric property: `none` = `undefined`. -/
def ErrRecord.get (r : ErrRecord) (k : String) : Option Nat :=
  (r.numFields.find? (fun p => p.1 == k)).map (fun p => p.2)

/-- Modelled from the spec: the error-record shape the specification
declares for the assembler output, `{ line: u32, message: string }` — the
line number sits under the property name `line`. -/
def specErrRecord (line : Nat) (msg : String) : ErrRecord :=
  { numFields := [("line", line)], message := msg }

/-- An error record as the host's code expects it: the line number sits
under the property name `lineno` (`src/app.js` line 206 reads
`firstErr.lineno`). -/
def codeErrRecord (lineno : Nat) (msg : String) : ErrRecord :=
  { numFields := [("lineno", lineno)], message := msg }

/-- The successful output of `assemble_riscv` as the host consumes it:
image bytes, symbol table, source-line map and disassembly dump.
(`assembler.js` is not under `src/`; the fields are those `start` reads.) -/
structure AsmSuccess where
  data : List Nat
  symbols : List (String × Nat)
  lineMap : List (Nat × Nat)
  dump : String

/-- The result of `assemble_riscv`: success or a list of error records
(`res.type === 'errors'`). -/
inductive AsmResult where
  | success (r : AsmSuccess)
  | errors (es : List ErrRecord)

/-- Symbol-table lookup, `res.symbols.get(name)` on the JavaScript `Map`. -/
def symbolsGet (symbols : List (String × Nat)) (k : String) : Option Nat :=
  (symbols.find? (fun p => p.1 == k)).map (fun p => p.2)

/-- JavaScript template-literal rendering of a possibly-undefined number. -/
def jsNumShow : Option Nat → String
  | some n => toString n
  | none => "undefined"

/-- The origin the host passes to the assembler, `src/app.js` line 200. -/
def origin : Nat := 0x40000000

/-- The slice of the host's mutable `state` object (`src/app.js` lines
65-76) that `start` touches, together with the status line and the editor
lock.  `statusMsg` is `none` when the status element is hidden
(`clearError`); `terminalText` is the terminal log written by
`logToTerminal`.  The view-diff caches (`lastRegs`, `lastCsr`) and button
styling are presentation details and are not modelled. -/
structure HostState where
  mem : Option UiMemory
  riscv : Option RiscvState
  running : Bool
  started : Bool
  pcToLine : List (Nat × Nat)
  dumpStr : String
  statusMsg : Option String
  editorDisabled : Bool
  terminalText : String

/-- `start` (`src/app.js` lines 197-236), parametrised by the assembler's
result.  On an errors result it shows the first error (reading its `lineno`
property) and returns; on success it builds the memory, copies the image,
builds the interpreter, sets `pc` from the `_start` symbol (origin if
absent), sets `regs[2]` to `origin + memory.byteLength`, flips the flags
and locks the editor.  An empty errors list would make the JavaScript throw
on `res.errors[0].lineno`; that unreachable case leaves the state as after
`clearError`. -/
def startHost (res : AsmResult) (s : HostState) : HostState :=
  let s0 := { s with statusMsg := none }
  match res with
  | .errors es =>
    match es.head? with
    | some firstErr =>
        { s0 with statusMsg := some ("Assemble Error (Line " ++
            jsNumShow (firstErr.get "lineno") ++ "): " ++ firstErr.message) }
    | none => s0
  | .success r =>
    let mem := copyImage UiMemory.init r.data
    let cpu0 := RiscvState.init
    let cpu1 := { cpu0 with pc := (symbolsGet r.symbols "_start").getD origin }
    let cpu := { cpu1 with
      regs := Function.update cpu1.regs 2 ((origin + mem.mem.size) % 2 ^ 32) }
    { s0 with
      pcToLine := r.lineMap
      dumpStr := r.dump
      mem := some mem
      riscv := some cpu
      started := true
      running := false
      editorDisabled := true
      terminalText := s0.terminalText ++ "[ Started ]\n" }

/-- The `CAUSES` table of `src/app.js` lines 79-88: trap cause code to
human-readable message. -/
def CAUSES : List (Nat × String) :=
  [(0x00, "Instruction address misaligned"),
   (0x01, "Instruction access fault"),
   (0x02, "Illegal instruction"),
   (0x03, "Breakpoint"),
   (0x05, "Load access fault"),
   (0x07, "Store/AMO access fault"),
   (0x08, "User ECALL"),
   (0x0b, "Machine ECALL")]

/-- `CAUSES.get(cause)` on the JavaScript `Map`: `none` = `undefined`. -/
def causesGet (cause : Nat) : Option String :=
  (CAUSES.find? (fun p => p.1 == cause)).map (fun p => p.2)

/-- The message the host reports for a trap cause,
`CAUSES.get(res.cause) || ` followed by the `Unknown (cause)` fallback
(`src/app.js` lines 276 and 294). -/
def causeStr (cause : Nat) : String :=
  match causesGet cause with
  | some s => s
  | none => "Unknown (" ++ toString cause ++ ")"

/-- The eight hex digits of `(x >>> 0).toString(16).padStart(8, '0')`. -/
def hexPad8 (x : Nat) : String :=
  let digits := Nat.toDigits 16 (x % 2 ^ 32)
  String.mk (List.replicate (8 - digits.length) '0' ++ digits)

/-- `fmtHex` of `src/app.js` line 90. -/
def fmtHex (x : Nat) : String := "0x" ++ hexPad8 x

/-- `fmtHex64` of `src/app.js` line 91. -/
def fmtHex64 (hi lo : Nat) : String := "0x" ++ hexPad8 hi ++ "_" ++ hexPad8 lo

/-- The record returned by `dump_state()` as `updateView` consumes it
(spec: `{ pc, regs[32], priv, mpp, mscratch, mtvec, mepc, mtval, mcause,
cycle (u64), instret (u64) }`; the 64-bit counters arrive as
`[lo, hi]` word pairs). -/
structure StateDump where
  pc : Nat
  regs : Fin 32 → Nat
  priv : Nat
  mpp : Nat
  mscratch : Nat
  mtvec : Nat
  mepc : Nat
  mtval : Nat
  mcause : Nat
  cycleLo : Nat
  cycleHi : Nat
  instretLo : Nat
  instretHi : Nat

/-- `privLabels[p] || '???'` of `src/app.js` line 156. -/
def privLabel (p : Nat) : String :=
  if p = 0 then "User" else if p = 3 then "Machine" else "???"

/-- The ten CSR strings `updateView` writes into the CSR panel. -/
structure CsrView where
  priv : String
  mstatus : String
  mpp : String
  mscratch : String
  mtvec : String
  mepc : String
  mtval : String
  mcause : String
  cycle : String
  instret : String

/-- The CSR panel text computed by `updateView` (`src/app.js` lines
156-179) from a state dump.  In particular the `mstatus` row shows
`fmtHex(dump.priv << 11)`. -/
def updateViewCsrs (d : StateDump) : CsrView :=
  { priv := toString d.priv ++ " (" ++ privLabel d.priv ++ ")"
    mstatus := fmtHex (d.priv * 2 ^ 11)
    mpp := toString d.mpp ++ " (" ++ privLabel d.mpp ++ ")"
    mscratch := fmtHex d.mscratch
    mtvec := fmtHex d.mtvec
    mepc := fmtHex d.mepc
    mtval := fmtHex d.mtval
    mcause := fmtHex d.mcause
    cycle := fmtHex64 d.cycleHi d.cycleLo
    instret := fmtHex64 d.instretHi d.instretLo }

/-- The value `state.riscv.step()` returns, as the host dispatches on it:
`res.type === 'exception'` carries `cause` and `epc`, `res.type === 'stop'`
is the ebreak halt, anything else is a normally retired instruction. -/
inductive StepResult where
  | retired
  | exception (cause epc : Nat)
  | stop
deriving DecidableEq

/-- The driver flags `step`, `runLoop` and `pause` manipulate: the
`running` flag, whether a `setTimeout` is pending, whether the Step button
is disabled, and the status line. -/
structure DriverState where
  running : Bool
  timerSet : Bool
  stepDisabled : Bool
  statusMsg : Option String

/-- `pause` (`src/app.js` lines 323-328): clears the running flag and the
pending timer and re-enables the Step button. -/
def pause (s : DriverState) : DriverState :=
  { s with running := false, timerSet := false, stepDisabled := false }

/-- The handling of one `step` result by the single-step handler
(`src/app.js` lines 275-282): an exception shows its message and pauses
only when the pause-on-exception box `cp` is checked; the ebreak stop
always pauses; a retired instruction changes nothing. -/
def hostStep (cp : Bool) (r : StepResult) (s : DriverState) : DriverState :=
  match r with
  | .retired => s
  | .exception cause epc =>
    let msg := "Exception: " ++ causeStr cause ++ " @PC=" ++ fmtHex epc
    let s1 := { s with statusMsg := some msg }
    if cp then pause s1 else s1
  | .stop => pause { s with statusMsg := some "Program halted (ebreak)" }

/-- `STEPS_PER_BATCH` of `src/app.js` line 287. -/
def batchSize : Nat := 50

/-- How one invocation of the run-loop body ended: an early `return` after
`pause()` (pausing exception or ebreak stop), or a completed `for` loop. -/
inductive BatchExit where
  | pausedEarly
  | completed
deriving DecidableEq

/-- Accounting of one run-loop invocation: how many times `step` was
called, how many times `updateView` was called, and how the loop ended. -/
structure BatchAcc where
  steps : Nat
  views : Nat
  exit : BatchExit
deriving DecidableEq

/-- The `for` loop of `runLoop` (`src/app.js` lines 289-306) starting at
iteration `i` with `r` iterations left; `res j` is the result of the
`j`-th `step()` call of this invocation.  A retired instruction just
continues; an exception calls `updateView`, shows its message and — when
`cp` is checked — pauses and returns; a stop calls `updateView`, shows the
halt message, pauses and returns. -/
def loopAux (cp : Bool) (res : Nat → StepResult) : Nat → Nat → BatchAcc
  | _, 0 => { steps := 0, views := 0, exit := .completed }
  | i, r + 1 =>
    match res i with
    | .retired =>
      let a := loopAux cp res (i + 1) r
      { a with steps := a.steps + 1 }
    | .exception _ _ =>
      if cp then { steps := 1, views := 1, exit := .pausedEarly }
      else
        let a := loopAux cp res (i + 1) r
        { steps := a.steps + 1, views := a.views + 1, exit := a.exit }
    | .stop => { steps := 1, views := 1, exit := .pausedEarly }

/-- The observable outcome of one `runLoop` invocation: `step` calls made,
`updateView` calls made, whether `pause()` ran, and whether the next
invocation was scheduled with `setTimeout`. -/
structure RunLoopLog where
  steps : Nat
  views : Nat
  paused : Bool
  rescheduled : Bool
deriving DecidableEq

/-- One invocation of `runLoop` (`src/app.js` lines 285-309): if the
running flag is clear it returns at once; otherwise it runs the batch of
up to 50 steps, and — when the `for` loop completes — calls `updateView`
once more and schedules the next invocation with `setTimeout`. -/
def runLoopModel (running cp : Bool) (res : Nat → StepResult) : RunLoopLog :=
  if running then
    let a := loopAux cp res 0 batchSize
    match a.exit with
    | .pausedEarly =>
      { steps := a.steps, views := a.views, paused := true, rescheduled := false }
    | .completed =>
      { steps := a.steps, views := a.views + 1, paused := false, rescheduled := true }
  else { steps := 0, views := 0, paused := false, rescheduled := false }

/-- The number of exception results among `res i, …, res (i + r - 1)`. -/
def countExRange (res : Nat → StepResult) : Nat → Nat → Nat
  | _, 0 => 0
  | i, r + 1 =>
    (match res i with
     | .exception _ _ => 1
     | _ => 0) + countExRange res (i + 1) r

/-- A concrete host state (fresh page, nothing started) used to evaluate
the theorems on explicit inputs. -/
def sampleHost : HostState :=
  { mem := none, riscv := none, running := false, started := false,
    pcToLine := [], dumpStr := "", statusMsg := none,
    editorDisabled := false, terminalText := "" }

/-- A concrete driver state (running, timer pending) used to evaluate the
theorems on explicit inputs. -/
def sampleDriver : DriverState :=
  { running := true, timerSet := true, stepDisabled := true, statusMsg := none }

/-- A concrete successful assembler result whose symbol table binds
`_start` to `0x40000010`. -/
def sampleAsm : AsmSuccess :=
  { data := [0x13, 0x00, 0x00, 0x00], symbols := [("_start", 0x40000010)],
    lineMap := [(0x40000000, 1)], dump := "" }

/-- A concrete successful assembler result with no `_start` symbol. -/
def sampleAsmNoEntry : AsmSuccess :=
  { data := [0x13, 0x00, 0x00, 0x00], symbols := [("loop", 0x40000004)],
    lineMap := [], dump := "" }

/-- A concrete state dump (Machine mode). -/
def sampleDump1 : StateDump :=
  { pc := 0x40000000, regs := fun _ => 0, priv := 3, mpp := 0,
    mscratch := 0, mtvec := 0, mepc := 0, mtval := 0, mcause := 0,
    cycleLo := 0, cycleHi := 0, instretLo := 0, instretHi := 0 }

/-- A second concrete state dump with the same privilege as
`sampleDump1` but every other field different. -/
def sampleDump2 : StateDump :=
  { pc := 0x40000004, regs := fun _ => 7, priv := 3, mpp := 3,
    mscratch := 1, mtvec := 2, mepc := 3, mtval := 4, mcause := 5,
    cycleLo := 6, cycleHi := 7, instretLo := 8, instretHi := 9 }

/-! ## Helper lemmas -/

set_option maxRecDepth 4096 in
/-- The UTF-8 decoding of a one-byte buffer: an ASCII byte keeps its code,
any byte `≥ 0x80` becomes the replacement character U+FFFD. -/
theorem decodeByte_toNat_fin :
    ∀ b : Fin 256, (decodeByte b.val).toNat = if b.val < 128 then b.val else 0xFFFD := by
  decide

/-- The batch loop never calls `step` more often than its fuel allows. -/
theorem loopAux_steps_le (cp : Bool) (res : Nat → StepResult) :
    ∀ r i, (loopAux cp res i r).steps ≤ r := by
  intro r
  induction r with
  | zero => intro i; exact Nat.le_refl 0
  | succ r ih =>
    intro i
    simp only [loopAux]
    cases hres : res i with
    | retired =>
      dsimp only
      exact Nat.succ_le_succ (ih (i + 1))
    | exception c e =>
      dsimp only
      cases cp with
      | false =>
        simp only [Bool.false_eq_true, if_false]
        exact Nat.succ_le_succ (ih (i + 1))
      | true =>
        simp only [if_true]
        omega
    | stop =>
      dsimp only
      omega

/-- A batch whose 50 results contain no stop — and, when pause-on-exception
is checked, no exception either — runs to completion: it takes every step
and refreshes the view once per exception seen. -/
theorem loopAux_clean (cp : Bool) (res : Nat → StepResult) :
    ∀ r i,
      (∀ j, i ≤ j → j < i + r →
        res j ≠ .stop ∧ (cp = true → ∀ c e, res j ≠ .exception c e)) →
      loopAux cp res i r =
        { steps := r, views := countExRange res i r, exit := .completed } := by
  intro r
  induction r with
  | zero => intro i _; rfl
  | succ r ih =>
    intro i h
    have hstep := h i (Nat.le_refl i) (by omega)
    have hrest : ∀ j, i + 1 ≤ j → j < i + 1 + r →
        res j ≠ .stop ∧ (cp = true → ∀ c e, res j ≠ .exception c e) :=
      fun j h1 h2 => h j (by omega) (by omega)
    simp only [loopAux, countExRange]
    cases hres : res i with
    | retired =>
      dsimp only
      rw [ih (i + 1) hrest]
      simp
    | exception c e =>
      cases hcp : cp with
      | true => exact absurd hres (hstep.2 hcp c e)
      | false =>
        subst hcp
        dsimp only
        simp only [Bool.false_eq_true, if_false]
        rw [ih (i + 1) hrest]
        simp [Nat.add_comm]
    | stop => exact absurd hres hstep.1

/-- A batch whose first result is the ebreak stop pauses at once after one
step and one view refresh. -/
theorem loopAux_stop_head (cp : Bool) (res : Nat → StepResult) (r i : Nat)
    (h : res i = .stop) :
    loopAux cp res i (r + 1) = { steps := 1, views := 1, exit := .pausedEarly } := by
  simp only [loopAux, h]

/-! ## Claims -/

/-- C1, counterexample: writing the byte `0xC3` to `0x10000000` succeeds and
appends exactly one character, but that character is the replacement
character U+FFFD — the host UTF-8-decodes each byte in isolation — so its
code is not the low 8 bits (`0xC3`) of the written data. -/
theorem c1_write_high_byte_counterexample :
    (UiMemory.write UiMemory.init 0x10000000 1 0xC3).1 = some () ∧
    (UiMemory.write UiMemory.init 0x10000000 1 0xC3).2.terminal =
      String.mk [Char.ofNat 0xFFFD] ∧
    (Char.ofNat 0xFFFD).toNat ≠ 0xC3 := by
  refine ⟨rfl, rfl, by decide⟩

/-- C1, amended: every write to `0x10000000` with width 1 or 4 succeeds
(returns `true`) and appends exactly one character to the terminal: the
character with code `data & 0xff` when that byte is below `0x80`, and the
replacement character U+FFFD otherwise (each byte is UTF-8-decoded in
isolation); every read from `0x10000000` with width 1 or 4 returns 0. -/
theorem c1_mmio_char_sink (m : UiMemory) (w d : Nat) (hw : w = 1 ∨ w = 4) :
    (UiMemory.write m 0x10000000 w d).1 = some () ∧
    (UiMemory.write m 0x10000000 w d).2.terminal =
      m.terminal.push (decodeByte (d % 256)) ∧
    (d % 256 < 128 → (decodeByte (d % 256)).toNat = d % 256) ∧
    (128 ≤ d % 256 → (decodeByte (d % 256)).toNat = 0xFFFD) ∧
    UiMemory.read m 0x10000000 w = some 0 := by
  have hb : d % 256 < 256 := Nat.mod_lt _ (by norm_num)
  have htn := decodeByte_toNat_fin ⟨d % 256, hb⟩
  have h1 : d % 256 < 128 → (decodeByte (d % 256)).toNat = d % 256 := by
    intro hlt
    simpa [hlt] using htn
  have h2 : 128 ≤ d % 256 → (decodeByte (d % 256)).toNat = 0xFFFD := by
    intro hge
    simpa [Nat.not_lt.2 hge] using htn
  rcases hw with hw | hw <;> subst hw <;>
    exact ⟨by simp [UiMemory.write], by simp [UiMemory.write], h1, h2,
      by simp [UiMemory.read]⟩

/-- C1, witness: the amended theorem evaluated at a fresh memory, width 1
and data `0x48`: the write succeeds, the terminal shows `"H"`, the read
returns 0. -/
theorem c1_mmio_char_sink_witness :
    (UiMemory.write UiMemory.init 0x10000000 1 0x48).1 = some () ∧
    (UiMemory.write UiMemory.init 0x10000000 1 0x48).2.terminal = "H" ∧
    UiMemory.read UiMemory.init 0x10000000 1 = some 0 := by
  have h := c1_mmio_char_sink UiMemory.init 1 0x48 (Or.inl rfl)
  exact ⟨h.1, by rw [h.2.1]; rfl, h.2.2.2.2⟩

/-- C9: a halfword (width 2) access at `0x10000000` faults on both sides —
read and write return `null` — and the write leaves the whole `UiMemory`
(terminal included) unchanged: only widths 1 and 4 reach the character
device. -/
theorem c9_mmio_halfword_faults (m : UiMemory) (d : Nat) :
    UiMemory.read m 0x10000000 2 = none ∧
    (UiMemory.write m 0x10000000 2 d).1 = none ∧
    (UiMemory.write m 0x10000000 2 d).2 = m := by
  refine ⟨by simp [UiMemory.read], by simp [UiMemory.write], by simp [UiMemory.write]⟩

/-- C10: a successful write to `0x10000000` leaves the backing RAM (the
whole base `RiscvMemory`, its byte array included) unchanged: the MMIO
branch returns before falling through to `super.write`. -/
theorem c10_mmio_write_preserves_ram (m : UiMemory) (w d : Nat)
    (hs : (UiMemory.write m 0x10000000 w d).1 = some ()) :
    (UiMemory.write m 0x10000000 w d).2.mem = m.mem := by
  by_cases hw : w = 4 ∨ w = 1
  · simp [UiMemory.write, hw]
  · simp [UiMemory.write, hw] at hs

/-- C10, witness: the theorem evaluated at a fresh memory, width 1 and
data 65. -/
theorem c10_mmio_write_preserves_ram_witness :
    (UiMemory.write UiMemory.init 0x10000000 1 65).2.mem = UiMemory.init.mem :=
  c10_mmio_write_preserves_ram UiMemory.init 1 65 rfl

/-- C2: after a successful `start`, the interpreter's PC is the address the
symbol table binds to `_start` — the origin when `_start` is absent — and
the stack-pointer register `regs[2]` is `origin + memory.size`, the top of
the `2 ^ 20`-byte memory. -/
theorem c2_start_entry_and_sp (s : HostState) (r : AsmSuccess) :
    ∃ cpu m,
      (startHost (.success r) s).riscv = some cpu ∧
      (startHost (.success r) s).mem = some m ∧
      (∀ a, symbolsGet r.symbols "_start" = some a → cpu.pc = a) ∧
      (symbolsGet r.symbols "_start" = none → cpu.pc = origin) ∧
      m.mem.size = 2 ^ 20 ∧
      cpu.regs 2 = origin + m.mem.size := by
  refine ⟨_, _, rfl, rfl, ?_, ?_, rfl, ?_⟩
  · intro a ha
    show (symbolsGet r.symbols "_start").getD origin = a
    rw [ha]
    rfl
  · intro ha
    show (symbolsGet r.symbols "_start").getD origin = origin
    rw [ha]
    rfl
  · dsimp only
    rw [Function.update_same]
    exact Nat.mod_eq_of_lt (by norm_num [origin, copyImage, UiMemory.init])

/-- C2, witness: `start` on a result binding `_start` to `0x40000010` sets
PC to that address and SP to `0x40100000`; on a result with no `_start`
symbol PC is the origin `0x40000000`. -/
theorem c2_start_entry_and_sp_witness :
    (∃ cpu, (startHost (.success sampleAsm) sampleHost).riscv = some cpu ∧
      cpu.pc = 0x40000010 ∧ cpu.regs 2 = 0x40100000) ∧
    (∃ cpu, (startHost (.success sampleAsmNoEntry) sampleHost).riscv = some cpu ∧
      cpu.pc = 0x40000000) := by
  obtain ⟨cpu, m, hr, hm, hsome, hnone, hsz, hsp⟩ :=
    c2_start_entry_and_sp sampleHost sampleAsm
  obtain ⟨cpu2, m2, hr2, hm2, hsome2, hnone2, hsz2, hsp2⟩ :=
    c2_start_entry_and_sp sampleHost sampleAsmNoEntry
  refine ⟨⟨cpu, hr, hsome 0x40000010 (by decide), ?_⟩, ⟨cpu2, hr2, hnone2 (by decide)⟩⟩
  rw [hsp, hsz]
  decide

/-- C4, counterexample: the spec-listed cause 4 (`LoadAddressMisaligned`)
has no entry in the host's `CAUSES` table, so an exception with that cause
is reported through the `Unknown` fallback. -/
theorem c4_causes_counterexample :
    causesGet 4 = none ∧ causeStr 4 = "Unknown (4)" := by
  exact ⟨rfl, rfl⟩

/-- C4, amended: the `CAUSES` table has a human-readable message for the
spec-listed cause codes 0, 1, 2, 3, 5, 7, 8 and 11, but not for 4
(`LoadAddressMisaligned`) or 6 (`StoreAddressMisaligned`): those two
spec-listed causes fall through to the `Unknown` fallback. -/
theorem c4_causes_coverage :
    (causesGet 0).isSome = true ∧ (causesGet 1).isSome = true ∧
    (causesGet 2).isSome = true ∧ (causesGet 3).isSome = true ∧
    (causesGet 5).isSome = true ∧ (causesGet 7).isSome = true ∧
    (causesGet 8).isSome = true ∧ (causesGet 11).isSome = true ∧
    causesGet 4 = none ∧ causesGet 6 = none ∧
    causeStr 4 = "Unknown (4)" ∧ causeStr 6 = "Unknown (6)" := by
  decide

/-- C6: the `mstatus` value the host displays is `fmtHex(priv << 11)` —
and it depends on nothing but `priv`: two dumps with the same privilege
level display the same `mstatus`, whatever their other fields (no MIE/MPIE
bits are derived or shown). -/
theorem c6_mstatus_display (d d2 : StateDump) (hpriv : d.priv = d2.priv) :
    (updateViewCsrs d).mstatus = fmtHex (d.priv * 2 ^ 11) ∧
    (updateViewCsrs d).mstatus = (updateViewCsrs d2).mstatus := by
  exact ⟨rfl, by simp [updateViewCsrs, hpriv]⟩

/-- C6, witness: two Machine-mode dumps that differ in every non-`priv`
field display the same `mstatus`, namely `fmtHex(3 << 11)`. -/
theorem c6_mstatus_display_witness :
    (updateViewCsrs sampleDump1).mstatus = fmtHex (3 * 2 ^ 11) ∧
    (updateViewCsrs sampleDump1).mstatus = (updateViewCsrs sampleDump2).mstatus :=
  c6_mstatus_display sampleDump1 sampleDump2 rfl

/-- C7, counterexample: if the assembler's error records had the shape the
spec declares — the line number under the property `line` — then `start`
on an error at line 3 would report `Line undefined`, because the host reads
the property `lineno` (`src/app.js` line 206): the code's record shape does
not match the spec's declared `{ line, message }` shape. -/
theorem c7_error_shape_counterexample :
    (startHost (.errors [specErrRecord 3 "undefined symbol"]) sampleHost).statusMsg =
      some "Assemble Error (Line undefined): undefined symbol" ∧
    (startHost (.errors [specErrRecord 3 "undefined symbol"]) sampleHost).statusMsg ≠
      some "Assemble Error (Line 3): undefined symbol" := by
  exact ⟨rfl, by decide⟩

/-- C7, amended: on an errors result `start` reports the first error's
`lineno` property (not `line` as the spec's declared shape would have it)
and its message, and changes nothing else: the resulting state is the input
state with only the status line replaced — no memory or interpreter is
constructed, `started` keeps its value (false before a successful start)
and the editor stays enabled. -/
theorem c7_start_error_atomicity (s : HostState) (e : ErrRecord)
    (rest : List ErrRecord) :
    startHost (.errors (e :: rest)) s =
      { s with statusMsg := some ("Assemble Error (Line " ++
          jsNumShow (e.get "lineno") ++ "): " ++ e.message) } ∧
    (startHost (.errors (e :: rest)) s).mem = s.mem ∧
    (startHost (.errors (e :: rest)) s).riscv = s.riscv ∧
    (startHost (.errors (e :: rest)) s).started = s.started ∧
    (startHost (.errors (e :: rest)) s).editorDisabled = s.editorDisabled := by
  exact ⟨rfl, rfl, rfl, rfl, rfl⟩

/-- C3: the ebreak stop always pauses — both in the single-step handler and
in the run loop — while an exception pauses only when the pause-on-exception
box is checked: with it unchecked the handler leaves the running flag alone
and a run loop that sees no stop never pauses, so a trap alone never stops
execution. -/
theorem c3_stop_pauses_trap_does_not (cp : Bool) (c e : Nat) (s : DriverState)
    (res res2 : Nat → StepResult)
    (h0 : res 0 = .stop) (hns : ∀ i, res2 i ≠ .stop) :
    (hostStep cp .stop s).running = false ∧
    (hostStep true (.exception c e) s).running = false ∧
    (hostStep false (.exception c e) s).running = s.running ∧
    (runLoopModel true cp res).paused = true ∧
    (runLoopModel true false res2).paused = false := by
  have hstop : loopAux cp res 0 batchSize =
      { steps := 1, views := 1, exit := .pausedEarly } :=
    loopAux_stop_head cp res 49 0 h0
  have hclean : loopAux false res2 0 batchSize =
      { steps := batchSize, views := countExRange res2 0 batchSize,
        exit := .completed } :=
    loopAux_clean false res2 batchSize 0
      (fun j _ _ => ⟨hns j, fun hc => nomatch hc⟩)
  refine ⟨rfl, rfl, rfl, ?_, ?_⟩
  · simp [runLoopModel, hstop]
  · simp [runLoopModel, hclean]

/-- C3, witness: the theorem evaluated on a concrete driver state, a
stream that stops immediately and a stream that always retires. -/
theorem c3_stop_pauses_trap_does_not_witness :
    (hostStep false .stop sampleDriver).running = false ∧
    (hostStep true (.exception 2 0) sampleDriver).running = false ∧
    (hostStep false (.exception 2 0) sampleDriver).running = sampleDriver.running ∧
    (runLoopModel true false (fun _ => StepResult.stop)).paused = true ∧
    (runLoopModel true false (fun _ => StepResult.retired)).paused = false :=
  c3_stop_pauses_trap_does_not false 2 0 sampleDriver
    (fun _ => StepResult.stop) (fun _ => StepResult.retired) rfl
    (fun _ h => StepResult.noConfusion h)

/-- C5, counterexample: with pause-on-exception unchecked, a batch whose
first step traps (its 49 other steps retiring) runs all 50 steps but
refreshes the view twice — once for the exception and once at the end of
the batch — not once as the claim states. -/
theorem c5_views_counterexample :
    (runLoopModel true false
      (fun i => if i = 0 then StepResult.exception 2 0 else StepResult.retired)).steps
        = 50 ∧
    (runLoopModel true false
      (fun i => if i = 0 then StepResult.exception 2 0 else StepResult.retired)).views
        = 2 ∧
    (runLoopModel true false
      (fun i => if i = 0 then StepResult.exception 2 0 else StepResult.retired)).views
        ≠ 1 := by
  refine ⟨by decide, by decide, by decide⟩

/-- C5, amended: one `runLoop` invocation while running calls `step` at
most 50 times, and exactly 50 times when no ebreak stop occurs and no
exception pauses it (none occurs with the pause box checked); it then
refreshes the view once for the batch plus once more for every exception
observed during the batch — exactly once when the batch is
exception-free. -/
theorem c5_batch_accounting (cp : Bool) (res : Nat → StepResult)
    (h : ∀ j, j < 50 →
      res j ≠ .stop ∧ (cp = true → ∀ c e, res j ≠ .exception c e)) :
    (∀ cp2 res2, (runLoopModel true cp2 res2).steps ≤ 50) ∧
    runLoopModel true cp res =
      { steps := 50, views := countExRange res 0 50 + 1,
        paused := false, rescheduled := true } := by
  constructor
  · intro cp2 res2
    have hle := loopAux_steps_le cp2 res2 batchSize 0
    unfold runLoopModel
    cases hx : (loopAux cp2 res2 0 batchSize).exit with
    | pausedEarly => simpa [hx] using hle
    | completed => simpa [hx] using hle
  · have hclean : loopAux cp res 0 batchSize =
        { steps := 50, views := countExRange res 0 50, exit := .completed } :=
      loopAux_clean cp res 50 0 (fun j _ hj => h j (by omega))
    simp only [runLoopModel, hclean, if_true]

/-- C5, witness: a batch of 50 retiring steps takes exactly 50 steps and
refreshes the view exactly once. -/
theorem c5_batch_accounting_witness :
    (runLoopModel true false (fun _ => StepResult.retired)).steps = 50 ∧
    (runLoopModel true false (fun _ => StepResult.retired)).views = 1 := by
  have h := c5_batch_accounting false (fun _ => StepResult.retired)
    (fun j _ => ⟨fun hc => StepResult.noConfusion hc, fun hcp => nomatch hcp⟩)
  rw [h.2]
  exact ⟨rfl, by decide⟩

/-- C8: cancellation is cooperative — a `runLoop` invocation that finds the
running flag clear returns at once, having called neither `step` nor
`updateView` and scheduling nothing, and `pause` clears both the running
flag and the pending timer, so no step runs after a pause takes effect
between batches. -/
theorem c8_cooperative_cancellation (cp : Bool) (res : Nat → StepResult)
    (s : DriverState) :
    runLoopModel false cp res =
      { steps := 0, views := 0, paused := false, rescheduled := false } ∧
    (pause s).running = false ∧ (pause s).timerSet = false := by
  exact ⟨rfl, rfl, rfl⟩

end RiscvEmu
